import Mathlib

set_option autoImplicit false

/-!
Shallow embedding of the data-extraction pipeline under
`src/lambdas/data_extractor/` (api_client.py, data_processor.py,
s3_writer.py, utils.py, handler.py), with theorems settling the spec
claims about it.

Modelling conventions:
* Python runtime values are the inductive `Val`; dicts are association
  lists built exclusively through `dictInsert`/`mkDict`, which mirror
  Python dict-assignment semantics (update in place, insertion order,
  later assignment wins).
* Python floats are modelled as exact rationals; no claim in scope
  depends on binary floating-point representation error.
* Effects are made explicit: `datetime.now()` results are passed in as
  arguments, `hashlib.md5(...).hexdigest()` is a function parameter, and
  S3 `put_object` calls are returned as a list of `S3Put` request values.
-/

namespace DataPipeline

/-- Python runtime values as they occur in this pipeline (JSON-like data).
Integers and floats are kept apart as in Python. -/
inductive Val : Type where
  | vNull : Val
  | vBool : Bool → Val
  | vInt : Int → Val
  | vFloat : ℚ → Val
  | vStr : String → Val
  | vList : List Val → Val
  | vDict : List (String × Val) → Val

/-- A Python dict, as the ordered list of its key/value pairs. -/
abbrev Dict : Type := List (String × Val)

/-- Python `v is None` on a value. -/
def isNone : Val → Bool
  | .vNull => true
  | _ => false

/-- Python `v == ""`: only the empty string itself compares equal to the
empty string among the values of `Val`. -/
def eqEmptyStr : Val → Bool
  | .vStr s => s == ""
  | _ => false

/-- Python truthiness of a value (`if x:`). -/
def pyTruthy : Val → Bool
  | .vNull => false
  | .vBool b => b
  | .vInt n => n != 0
  | .vFloat q => q != 0
  | .vStr s => s != ""
  | .vList xs => !xs.isEmpty
  | .vDict d => !d.isEmpty

/-- Python dict assignment `d[k] = v` (for any value type): when the key is
already present its value is updated in place (the key keeps its position);
otherwise the pair is appended at the end. -/
def pyInsert {α : Type} (d : List (String × α)) (k : String) (v : α) :
    List (String × α) :=
  if (d.lookup k).isSome then
    d.map (fun p => if p.1 = k then (k, v) else p)
  else d ++ [(k, v)]

/-- Evaluation of a Python dict display (or `dict(items)`): start from the
empty dict and assign every pair in order, so a later occurrence of a key
overwrites an earlier one while keeping the earlier position. -/
def mkDict {α : Type} (items : List (String × α)) : List (String × α) :=
  items.foldl (fun d kv => pyInsert d kv.1 kv.2) []

/-- Rendering of a float by `str`/`json.dumps`: integral values print with a
trailing ".0"; other values use an exact num/den shorthand (no claim in
scope inspects the text of a non-integral float). -/
def floatStr (q : ℚ) : String :=
  if q.den = 1 then toString q.num ++ ".0"
  else toString q.num ++ "/" ++ toString q.den

/-- JSON string escaping for the double quote and backslash characters. -/
def jsonEscapeChar (c : Char) : String :=
  if c = '"' then "\\\"" else if c = '\\' then "\\\\" else String.singleton c

/-- A JSON string literal. -/
def jsonStr (s : String) : String :=
  "\"" ++ String.join (s.data.map jsonEscapeChar) ++ "\""

/-- Model of `json.dumps(v)` with the default separators (", " and ": "). -/
def jsonDumps : Val → String
  | .vNull => "null"
  | .vBool true => "true"
  | .vBool false => "false"
  | .vInt n => toString n
  | .vFloat q => floatStr q
  | .vStr s => jsonStr s
  | .vList xs =>
      "[" ++ String.intercalate ", " (xs.attach.map (fun x => jsonDumps x.1)) ++ "]"
  | .vDict d =>
      "\x7b" ++ String.intercalate ", "
        (d.attach.map (fun p => jsonStr p.1.1 ++ ": " ++ jsonDumps p.1.2)) ++ "\x7d"
decreasing_by
  · have h := List.sizeOf_lt_of_mem x.2
    simp; omega
  · obtain ⟨⟨k, v⟩, hm⟩ := p
    have h := List.sizeOf_lt_of_mem hm
    simp at h ⊢; omega

/-- Recursively sort the keys of every dict inside a value, as
`json.dumps(v, sort_keys=True)` does before serializing. -/
def sortKeysDeep : Val → Val
  | .vList xs => .vList (xs.attach.map (fun x => sortKeysDeep x.1))
  | .vDict d =>
      .vDict (((d.attach.map (fun p => (p.1.1, sortKeysDeep p.1.2)))).mergeSort
        (fun a b => a.1 ≤ b.1))
  | v => v
decreasing_by
  · have h := List.sizeOf_lt_of_mem x.2
    simp; omega
  · obtain ⟨⟨k, v⟩, hm⟩ := p
    have h := List.sizeOf_lt_of_mem hm
    simp at h ⊢; omega

/-- Model of Python `repr` restricted to the values of `Val` (strings are
single-quoted; escaping inside them is not modelled, nothing depends on it). -/
def pyRepr : Val → String
  | .vNull => "None"
  | .vBool true => "True"
  | .vBool false => "False"
  | .vInt n => toString n
  | .vFloat q => floatStr q
  | .vStr s => "\x27" ++ s ++ "\x27"
  | .vList xs =>
      "[" ++ String.intercalate ", " (xs.attach.map (fun x => pyRepr x.1)) ++ "]"
  | .vDict d =>
      "\x7b" ++ String.intercalate ", "
        (d.attach.map (fun p => "\x27" ++ p.1.1 ++ "\x27: " ++ pyRepr p.1.2)) ++ "\x7d"
decreasing_by
  · have h := List.sizeOf_lt_of_mem x.2
    simp; omega
  · obtain ⟨⟨k, v⟩, hm⟩ := p
    have h := List.sizeOf_lt_of_mem hm
    simp at h ⊢; omega

/-- Model of Python `str(v)`: identity on strings, `repr`-like elsewhere. -/
def pyStr : Val → String
  | .vStr s => s
  | v => pyRepr v

/-- Python `type(v).__name__` for the values of `Val`. -/
def pyTypeName : Val → String
  | .vNull => "NoneType"
  | .vBool _ => "bool"
  | .vInt _ => "int"
  | .vFloat _ => "float"
  | .vStr _ => "str"
  | .vList _ => "list"
  | .vDict _ => "dict"

/-! ## data_processor.py -/

/-- DataProcessor._generate_id: md5 hex digest of the canonical (sorted-key)
JSON serialization of the record. The md5 hex-digest function itself is
external library code and is passed in as a parameter; theorems that need it
assume only its documented output shape (32 hex characters). -/
def generate_id (md5hex : String → String) (record : Dict) : String :=
  md5hex (jsonDumps (sortKeysDeep (.vDict record)))

/-- DataProcessor._flatten_record, items pass: walk the record; nested dicts
are recursively flattened (each nested level goes through a dict
construction, as in the source, which deduplicates its own keys before its
items are spliced in); lists are serialized to JSON strings; other values
are kept as is. -/
def flatten_items : Dict → String → String → List (String × Val)
  | [], _, _ => []
  | (k, .vDict d) :: rest, parentKey, sep =>
      mkDict (flatten_items d (if parentKey = "" then k else parentKey ++ sep ++ k) sep)
        ++ flatten_items rest parentKey sep
  | (k, .vList xs) :: rest, parentKey, sep =>
      ((if parentKey = "" then k else parentKey ++ sep ++ k),
        Val.vStr (jsonDumps (.vList xs))) :: flatten_items rest parentKey sep
  | (k, v) :: rest, parentKey, sep =>
      ((if parentKey = "" then k else parentKey ++ sep ++ k), v)
        :: flatten_items rest parentKey sep

/-- DataProcessor._flatten_record: `dict(items)` over the flattened items. -/
def flatten_record (record : Dict) (parentKey sep : String) : Dict :=
  mkDict (flatten_items record parentKey sep)

/-- Python `round(q, 2)` on an exact value: round to the nearest multiple of
1/100, ties to the even multiple. -/
def pyRound2 (q : ℚ) : ℚ :=
  let scaled := q * 100
  let n : ℤ := ⌊scaled⌋
  let r : ℤ :=
    if 1 / 2 < scaled - n then n + 1
    else if scaled - n < 1 / 2 then n
    else if Even n then n else n + 1
  (r : ℚ) / 100

/-- DataProcessor._calculate_quality_score: fraction of non-null, non-empty
values over the total field count of the (pre-flattened) record, rounded to
two decimal places; 0.0 for an empty record. -/
def calculate_quality_score (record : Dict) : ℚ :=
  if record.length = 0 then 0
  else
    pyRound2
      ((((record.filter (fun kv => !isNone kv.2 && !eqEmptyStr kv.2)).length : ℕ) : ℚ)
        / (record.length : ℚ))

/-- Required-field list of DataProcessor._check_completeness. -/
def required_fields : List String := ["id"]

/-- DataProcessor._check_completeness: every required field present with a
non-None value (`record.get(field) is not None`). -/
def check_completeness (record : Dict) : Bool :=
  required_fields.all (fun f => !isNone ((record.lookup f).getD Val.vNull))

/-- DataProcessor._process_record on a record (a dict): None for an empty
record, otherwise the processed dict display evaluated left to right; note
that the splice of the flattened record comes after the "id", "created_at"
and "processed_at" entries and before the two quality entries, so flattened
fields overwrite the former but are overwritten by the latter. The two
`datetime.now(UTC).isoformat()` results are the `createdAt`/`processedAt`
parameters. -/
def process_record (md5hex : String → String) (createdAt processedAt : String)
    (record : Dict) : Option Dict :=
  if record.isEmpty then none
  else some (mkDict (
    [("id", Val.vStr (pyStr ((record.lookup "id").getD
        (Val.vStr (generate_id md5hex record))))),
     ("created_at", Val.vStr createdAt),
     ("processed_at", Val.vStr processedAt)]
    ++ flatten_record record "" "_"
    ++ [("data_quality_score", Val.vFloat (calculate_quality_score record)),
        ("is_complete", Val.vBool (check_completeness record))]))

/-- One iteration of DataProcessor.process: a non-dict element raises inside
_process_record (`record.get` on a non-dict) and the surrounding
try/except skips it; a falsy non-dict (for example the empty string) makes
_process_record return None; either way the element contributes nothing. -/
def processElem (md5hex : String → String) (createdAt processedAt : String) :
    Val → Option Dict
  | .vDict record => process_record md5hex createdAt processedAt record
  | _ => none

/-- DataProcessor.process: per-record processing with skip-on-failure; the
`if processed_record:` truthiness check also drops an empty processed dict. -/
def process (md5hex : String → String) (createdAt processedAt : String)
    (rawData : List Val) : List Dict :=
  rawData.filterMap (fun v =>
    match processElem md5hex createdAt processedAt v with
    | some d => if d.isEmpty then none else some d
    | none => none)

/-- DataProcessor.add_metadata: caller metadata merged with the computed
record count, processing timestamp and fixed schema version (a later key
overwrites an earlier one, Python dict-display semantics). -/
def add_metadata (procTs : String) (data : List Dict) (metadata : Dict) : Dict :=
  mkDict (metadata ++
    [("record_count", Val.vInt data.length),
     ("processing_timestamp", Val.vStr procTs),
     ("schema_version", Val.vStr "1.0.0")])

/-! ## utils.py and s3_writer.py -/

/-- A `datetime.now(UTC)` reading, split into its components. -/
structure DateTime where
  year : Nat
  month : Nat
  day : Nat
  hour : Nat
  minute : Nat
  second : Nat
  microsecond : Nat
  deriving DecidableEq

/-- Component ranges every value produced by `datetime.now(UTC)` satisfies
(Python datetime guarantees 1 <= year <= 9999 and calendar-valid fields). -/
def DateTime.valid (t : DateTime) : Prop :=
  t.year ≤ 9999 ∧ 1 ≤ t.month ∧ t.month ≤ 12 ∧ 1 ≤ t.day ∧ t.day ≤ 31 ∧
  t.hour ≤ 23 ∧ t.minute ≤ 59 ∧ t.second ≤ 59 ∧ t.microsecond < 1000000

instance (t : DateTime) : Decidable t.valid := by
  unfold DateTime.valid; infer_instance

/-- Zero-padded two-digit rendering (`%m`, `%d`, `%H`, `%M`, `%S`, `:02d`),
exact for arguments below 100 (all valid component values are). -/
def pad2Chars (n : Nat) : List Char :=
  [Nat.digitChar (n / 10 % 10), Nat.digitChar (n % 10)]

/-- Zero-padded four-digit rendering (`%Y`), exact for arguments below
10000 (all valid years are). -/
def pad4Chars (n : Nat) : List Char :=
  [Nat.digitChar (n / 1000 % 10), Nat.digitChar (n / 100 % 10),
   Nat.digitChar (n / 10 % 10), Nat.digitChar (n % 10)]

/-- Model of `datetime.strftime("%Y%m%d_%H%M%S")`: second granularity, the
microsecond component is not rendered. -/
def strftimeCompact (t : DateTime) : String :=
  String.mk (pad4Chars t.year ++ pad2Chars t.month ++ pad2Chars t.day ++ ['_']
    ++ pad2Chars t.hour ++ pad2Chars t.minute ++ pad2Chars t.second)

/-- utils.get_partition_path: date-partition path; the year is rendered
unpadded, month and day with `:02d`. -/
def get_partition_path (t : DateTime) : String :=
  "year=" ++ toString t.year ++ "/month=" ++ String.mk (pad2Chars t.month)
    ++ "/day=" ++ String.mk (pad2Chars t.day)

/-- One `put_object` request issued to the S3 client. Writer theorems speak
about the requests issued; whether the service accepts them is outside the
model (a failed data put is re-raised, a failed metadata put is swallowed,
neither path is exercised by the claims in scope). -/
structure S3Put where
  bucket : String
  key : String
  body : String
  contentType : String
  metadata : List (String × String)
  serverSideEncryption : Option String
  deriving DecidableEq

/-- Indentation run used by `json.dumps(..., indent=2)`. -/
def spaces (n : Nat) : String := String.mk (List.replicate n ' ')

/-- Model of `json.dumps(v, indent=2)` (with `indent`, the item separator
is "," plus a newline and the key separator is ": "); the second argument
is the current indentation width. The `default=str` argument of _to_json
never fires because every `Val` is JSON-serializable. -/
def jsonDumpsInd : Val → Nat → String
  | .vNull, _ => "null"
  | .vBool true, _ => "true"
  | .vBool false, _ => "false"
  | .vInt n, _ => toString n
  | .vFloat q, _ => floatStr q
  | .vStr s, _ => jsonStr s
  | .vList [], _ => "[]"
  | .vList xs, ind =>
      "[\n" ++ String.intercalate ",\n"
        (xs.attach.map (fun x => spaces (ind + 2) ++ jsonDumpsInd x.1 (ind + 2)))
      ++ "\n" ++ spaces ind ++ "]"
  | .vDict [], _ => "\x7b\x7d"
  | .vDict d, ind =>
      "\x7b\n" ++ String.intercalate ",\n"
        (d.attach.map (fun p =>
          spaces (ind + 2) ++ jsonStr p.1.1 ++ ": " ++ jsonDumpsInd p.1.2 (ind + 2)))
      ++ "\n" ++ spaces ind ++ "\x7d"
termination_by v _ => sizeOf v
decreasing_by
  · have h := List.sizeOf_lt_of_mem x.2
    simp; omega
  · obtain ⟨⟨k, v⟩, hm⟩ := p
    have h := List.sizeOf_lt_of_mem hm
    simp at h ⊢; omega

/-- S3Writer._to_json: `json.dumps(data, indent=2, default=str)` encoded to
UTF-8 (bytes are kept as the string itself in the model). -/
def to_json (data : List Dict) : String :=
  jsonDumpsInd (.vList (data.map Val.vDict)) 0

/-- S3Writer._to_csv_simple: header row from the first record's keys, then
one positionally aligned row per record, missing fields rendered as the
empty string. -/
def to_csv_simple (data : List Dict) : String :=
  match data with
  | [] => ""
  | first :: _ =>
      let headers := first.map Prod.fst
      let headerLine := String.intercalate "," headers
      let rows := data.map (fun record =>
        String.intercalate ","
          (headers.map (fun h => pyStr ((record.lookup h).getD (Val.vStr "")))))
      String.intercalate "\n" (headerLine :: rows)

/-- Kind test used to state flattening totality: a value is a container
when it is a nested mapping or a sequence. -/
def isContainer : Val → Bool
  | .vList _ => true
  | .vDict _ => true
  | _ => false

/-- S3Writer._infer_schema: field name to runtime type name, sampled from
the first record only. -/
def infer_schema (data : List Dict) : List (String × String) :=
  match data with
  | [] => []
  | sample :: _ =>
      sample.foldl (fun sch kv => pyInsert sch kv.1 (pyTypeName kv.2)) []

/-- S3Writer._write_metadata_file: the sidecar put request at
`{dataKey}.metadata.json` (no Metadata map and no server-side encryption on
this put in the source). -/
def write_metadata_file (bucket dataKey : String) (data : List Dict)
    (metadata : Option Dict) (createdAt : String) : S3Put :=
  let content : Val := .vDict
    [("data_file", .vStr dataKey),
     ("created_at", .vStr createdAt),
     ("record_count", .vInt data.length),
     ("schema", .vDict ((infer_schema data).map (fun p => (p.1, Val.vStr p.2)))),
     ("custom_metadata", .vDict (metadata.getD []))]
  { bucket := bucket
    key := dataKey ++ ".metadata.json"
    body := jsonDumpsInd content 0
    contentType := "application/json"
    metadata := []
    serverSideEncryption := none }

/-- Python `key.replace(" ", "_").lower()` on a metadata key, acting on the
character list: spaces become underscores, then everything is lowercased. -/
def normalizeMetaKey (k : String) : String :=
  String.mk ((k.data.map (fun c => if c = ' ' then '_' else c)).map Char.toLower)

/-- S3Writer.write_data: key construction at second granularity, encoding
branch ("parquet" silently shares the JSON branch), S3 metadata map with
the size-capped custom entries, then the data put and the sidecar metadata
put. Returns the object key (or the ValueError message for an unsupported
format) together with every put request issued. -/
def write_data (bucket : String) (data : List Dict) (pfx : String)
    (format : String) (metadata : Option Dict)
    (now : DateTime) (metaCreatedAt : String) :
    Except String String × List S3Put :=
  let timestamp := strftimeCompact now
  let branch : Option (String × String × String) :=
    if format = "parquet" || format = "json" then
      some (pfx ++ "/data_" ++ timestamp ++ ".json", to_json data, "application/json")
    else if format = "csv" then
      some (pfx ++ "/data_" ++ timestamp ++ ".csv", to_csv_simple data, "text/csv")
    else none
  match branch with
  | none => (.error ("Unsupported format: " ++ format), [])
  | some (s3Key, content, contentType) =>
      let s3MetadataBase : List (String × String) :=
        [("record_count", toString data.length),
         ("format", if format = "parquet" then "json" else format),
         ("timestamp", timestamp)]
      let s3Metadata :=
        match metadata with
        | some md => md.foldl (fun acc kv =>
            if kv.1.length + (pyStr kv.2).length < 1024 then
              pyInsert acc (normalizeMetaKey kv.1) (pyStr kv.2)
            else acc) s3MetadataBase
        | none => s3MetadataBase
      let dataPut : S3Put :=
        { bucket := bucket
          key := s3Key
          body := content
          contentType := contentType
          metadata := s3Metadata
          serverSideEncryption := some "AES256" }
      (.ok s3Key, [dataPut, write_metadata_file bucket s3Key data metadata metaCreatedAt])

/-! ## api_client.py -/

/-- Faults raised inside APIClient.fetch_data. `httpError` is what
`response.raise_for_status()` raises (requests.HTTPError, a subclass of
requests.RequestException); `connectionError` and `timeout` stand for the
transport faults of `session.get` (both also RequestException subclasses);
`valueError` is the JSON-decode failure of `response.json()`; `typeError`
models iteration over a non-iterable value. -/
inductive PyError where
  | connectionError
  | timeout
  | httpError (status : Nat)
  | valueError
  | typeError
  deriving DecidableEq

/-- Membership in the exception tuple of the backoff decorator,
`(requests.RequestException, requests.Timeout)`: every transport fault and
every HTTPError is a RequestException; ValueError and TypeError are not. -/
def isRequestException : PyError → Bool
  | .connectionError => true
  | .timeout => true
  | .httpError _ => true
  | .valueError => false
  | .typeError => false

/-- Rough rendering of `str(e)` for an exception; no claim in scope
inspects the wording. -/
def pyErrStr : PyError → String
  | .connectionError => "Connection error"
  | .timeout => "Request timed out"
  | .httpError s => toString s ++ " Error"
  | .valueError => "Invalid JSON"
  | .typeError => "object is not iterable"

/-- One observed HTTP exchange: either the transport layer raised, or a
response arrived with a status code and a body that may (`some`) or may not
(`none`) decode as JSON. -/
inductive HttpOutcome where
  | raised (e : PyError)
  | response (status : Nat) (body : Option Val)

/-- Response-shape normalization of APIClient.fetch_data: a list is
returned as is; a dict is unwrapped through the conventional keys "data",
"results", "items" in that priority order (the wrapped value is returned
verbatim, whatever its type) or, failing those, wrapped as a one-element
list; any other payload type yields an empty list with a logged warning. -/
def normalizeResponse (data : Val) : Val :=
  match data with
  | .vList xs => .vList xs
  | .vDict d =>
      match d.lookup "data" with
      | some v => v
      | none =>
          match d.lookup "results" with
          | some v => v
          | none =>
              match d.lookup "items" with
              | some v => v
              | none => .vList [.vDict d]
  | _ => .vList []

/-- Body of one (undecorated) APIClient.fetch_data call against an observed
exchange: a transport fault re-raises, `raise_for_status` raises HTTPError
on a 4xx or 5xx status, an unparseable body raises ValueError, and a parsed
body is shape-normalized. -/
def fetch_data_once (o : HttpOutcome) : Except PyError Val :=
  match o with
  | .raised e => .error e
  | .response status body =>
      if 400 ≤ status ∧ status < 600 then .error (.httpError status)
      else
        match body with
        | none => .error .valueError
        | some v => .ok (normalizeResponse v)

/-- The max_tries argument of the backoff decorator in the source. -/
def max_tries : Nat := 3

/-- The max_time argument (seconds) of the backoff decorator in the source;
it caps wall-clock time across retries, which is outside this model. -/
def max_time : Nat := 60

/-- Exponential-backoff base delay in seconds before the n-th retry
(n = 1, 2, ...), as generated by backoff.expo: 1, 2, 4, ... -/
def expoDelay (n : Nat) : Nat := 2 ^ (n - 1)

/-- Run of a callable wrapped by `backoff.on_exception(backoff.expo,
(requests.RequestException, requests.Timeout), max_tries=3, max_time=60)`:
`attempt i` is the outcome of the i-th underlying call (0-based). The
wrapper returns the first success; a fault outside the RequestException
family propagates at once; a RequestException is retried while the try
budget lasts. Returns the final outcome and the number of calls made. -/
def backoffGo (attempt : Nat → Except PyError Val) :
    Nat → Nat → Except PyError Val × Nat
  | i, 0 => (attempt i, i + 1)
  | i, budget + 1 =>
      match attempt i with
      | .ok v => (.ok v, i + 1)
      | .error e =>
          if isRequestException e && budget != 0 then backoffGo attempt (i + 1) budget
          else (.error e, i + 1)

/-- The decorated APIClient.fetch_data, run against a stream of attempt
outcomes. -/
def fetch_data_retried (attempt : Nat → Except PyError Val) :
    Except PyError Val × Nat :=
  backoffGo attempt 0 max_tries

/-- Python truthiness of the optional max_pages argument inside
`if max_pages and page > max_pages`: None and 0 are both falsy, so both
mean "no limit". -/
def maxPagesTruthy : Option Int → Bool
  | none => false
  | some m => m != 0

/-- Python `all_data.extend(data)`: append the elements of an iterable
(strings iterate over characters, dicts over keys); a non-iterable raises
TypeError. -/
def pyExtend (acc : List Val) : Val → Except PyError (List Val)
  | .vList xs => .ok (acc ++ xs)
  | .vStr s => .ok (acc ++ s.data.map (fun c => Val.vStr (String.singleton c)))
  | .vDict d => .ok (acc ++ d.map (fun p => Val.vStr p.1))
  | _ => .error .typeError

/-- Loop of APIClient.fetch_paginated_data. `fetchPage p` is the outcome of
the (backoff-wrapped) fetch_data call for page p (1-based; the page_size
request parameter is absorbed into `fetchPage`); `fuel` bounds the number
of iterations modelled, since the Python `while True` diverges on an
endless source — theorems supply enough fuel and `none` marks exhaustion.
Returns the outcome (accumulated records in arrival order, or a propagated
fault) together with the number of fetch_data calls made. -/
def paginatedGo (fetchPage : Nat → Except PyError Val) (maxPages : Option Int) :
    Nat → Nat → List Val → Nat → Option (Except PyError (List Val) × Nat)
  | 0, _, _, _ => none
  | fuel + 1, page, acc, calls =>
      if maxPagesTruthy maxPages && decide ((page : Int) > maxPages.getD 0) then
        some (.ok acc, calls)
      else
        match fetchPage page with
        | .error e => some (.error e, calls + 1)
        | .ok v =>
            if ¬ pyTruthy v then some (.ok acc, calls + 1)
            else
              match pyExtend acc v with
              | .error e => some (.error e, calls + 1)
              | .ok acc2 => paginatedGo fetchPage maxPages fuel (page + 1) acc2 (calls + 1)

/-- APIClient.fetch_paginated_data, starting at page 1 with an empty
accumulator. -/
def fetch_paginated_data (fetchPage : Nat → Except PyError Val)
    (maxPages : Option Int) (fuel : Nat) :
    Option (Except PyError (List Val) × Nat) :=
  paginatedGo fetchPage maxPages fuel 1 [] 0

/-! ## handler.py -/

/-- The environment variables lambda_handler reads. -/
structure Env where
  apiEndpoint : Option String
  dataBucketName : Option String
  outputFormat : Option String

/-- The structured invocation result of lambda_handler. -/
structure HandlerResponse where
  statusCode : Nat
  body : String
  deriving DecidableEq

/-- Default API endpoint of handler.py. -/
def defaultEndpoint : String := "https://jsonplaceholder.typicode.com/users"

/-- Python iteration over a value, as `DataProcessor.process` does with the
fetched data (lists yield elements, strings characters, dicts keys;
anything else raises TypeError). -/
def pyIterElems : Val → Except PyError (List Val)
  | .vList xs => .ok xs
  | .vStr s => .ok (s.data.map (fun c => Val.vStr (String.singleton c)))
  | .vDict d => .ok (d.map (fun p => Val.vStr p.1))
  | _ => .error .typeError

/-- handler.lambda_handler: configuration resolution (a missing
DATA_BUCKET_NAME raises KeyError into the 500 configuration branch), fetch
(its outcome is the `fetchOutcome` parameter), the 204 no-data early
return, processing, metadata, partitioned write, and the structured
success/failure result. The clock readings and digest function are passed
in; the pair returned carries every S3 put request issued. -/
def lambda_handler (env : Env) (requestId : String)
    (fetchOutcome : Except PyError Val) (md5hex : String → String)
    (createdAt processedAt procTs extractionTs metaCreatedAt : String)
    (now : DateTime) : HandlerResponse × List S3Put :=
  match env.dataBucketName with
  | none =>
      ({ statusCode := 500
         body := jsonDumps (.vDict [("error",
           .vStr "Configuration error: \x27DATA_BUCKET_NAME\x27")]) }, [])
  | some bucketName =>
      let apiEndpoint := env.apiEndpoint.getD defaultEndpoint
      let outputFormat := env.outputFormat.getD "parquet"
      match fetchOutcome with
      | .error e =>
          ({ statusCode := 500
             body := jsonDumps (.vDict [("error",
               .vStr ("Processing failed: " ++ pyErrStr e))]) }, [])
      | .ok rawData =>
          if ¬ pyTruthy rawData then
            ({ statusCode := 204
               body := jsonDumps (.vDict [("message",
                 .vStr "No data to process")]) }, [])
          else
            match pyIterElems rawData with
            | .error e =>
                ({ statusCode := 500
                   body := jsonDumps (.vDict [("error",
                     .vStr ("Processing failed: " ++ pyErrStr e))]) }, [])
            | .ok rawElems =>
                let processedData := process md5hex createdAt processedAt rawElems
                let metadata := add_metadata procTs processedData
                  [("source", .vStr apiEndpoint),
                   ("extraction_time", .vStr extractionTs),
                   ("request_id", .vStr requestId)]
                match write_data bucketName processedData
                    ("raw-data/" ++ get_partition_path now) outputFormat
                    (some metadata) now metaCreatedAt with
                | (.error msg, puts) =>
                    ({ statusCode := 500
                       body := jsonDumps (.vDict [("error",
                         .vStr ("Processing failed: " ++ msg))]) }, puts)
                | (.ok s3Key, puts) =>
                    ({ statusCode := 200
                       body := jsonDumps (.vDict
                         [("message", .vStr "Data extraction completed successfully"),
                          ("details", .vDict
                            [("records_processed", .vInt processedData.length),
                             ("s3_location", .vStr ("s3://" ++ bucketName ++ "/" ++ s3Key)),
                             ("format", .vStr outputFormat),
                             ("request_id", .vStr requestId)])]) }, puts)


/-! ## Dictionary lemmas -/

theorem lookup_cons {α : Type} (k : String) (v : α) (l : List (String × α))
    (a : String) :
    ((k, v) :: l).lookup a = if a = k then some v else l.lookup a := by
  by_cases h : a = k
  · subst h; simp [List.lookup]
  · have hb : (a == k) = false := beq_eq_false_iff_ne.mpr h
    simp [List.lookup, hb, h]

theorem lookup_append {α : Type} (l1 l2 : List (String × α)) (a : String) :
    (l1 ++ l2).lookup a = (l1.lookup a).or (l2.lookup a) := by
  induction l1 with
  | nil => simp [List.lookup]
  | cons p rest ih =>
      obtain ⟨k, v⟩ := p
      by_cases h : a = k <;> simp [lookup_cons, h, ih]

theorem lookup_map_replace {α : Type} (d : List (String × α)) (k : String)
    (v : α) (a : String) :
    (d.map (fun p => if p.1 = k then (k, v) else p)).lookup a =
      if a = k then (d.lookup k).map (fun _ => v) else d.lookup a := by
  induction d with
  | nil => simp [List.lookup]
  | cons p rest ih =>
      obtain ⟨kp, vp⟩ := p
      by_cases hk : kp = k
      · subst hk
        by_cases ha : a = kp <;>
          simp [lookup_cons, ha, ih]
      · by_cases ha : a = kp
        · subst ha
          simp [lookup_cons, hk, ih, Ne.symm hk]
        · simp [lookup_cons, hk, ha, ih, Ne.symm hk]

theorem lookup_pyInsert {α : Type} (d : List (String × α)) (k : String)
    (v : α) (a : String) :
    (pyInsert d k v).lookup a = if a = k then some v else d.lookup a := by
  unfold pyInsert
  by_cases h : (d.lookup k).isSome
  · rw [if_pos h, lookup_map_replace]
    obtain ⟨w, hw⟩ := Option.isSome_iff_exists.mp h
    by_cases ha : a = k <;> simp [ha, hw]
  · rw [if_neg h, lookup_append]
    by_cases ha : a = k
    · subst ha
      simp only [Option.not_isSome_iff_eq_none] at h
      simp [h, lookup_cons, List.lookup]
    · rw [lookup_cons, if_neg ha]
      simp [List.lookup, ha]

theorem mkDict_append {α : Type} (l1 l2 : List (String × α)) :
    mkDict (l1 ++ l2) = l2.foldl (fun d kv => pyInsert d kv.1 kv.2) (mkDict l1) := by
  simp [mkDict, List.foldl_append]

theorem lookup_mkDict {α : Type} (l : List (String × α)) (a : String) :
    (mkDict l).lookup a = l.reverse.lookup a := by
  induction l using List.reverseRecOn with
  | nil => simp [mkDict, List.lookup]
  | append_singleton l p ih =>
      obtain ⟨k, v⟩ := p
      rw [mkDict_append]
      simp only [List.foldl_cons, List.foldl_nil, List.reverse_append,
        List.reverse_cons, List.reverse_nil, List.nil_append, List.cons_append,
        lookup_pyInsert, lookup_cons]
      by_cases ha : a = k <;> simp [ha, ih]

theorem mem_pyInsert {α : Type} {q : String × α} {d : List (String × α)}
    {k : String} {v : α} (h : q ∈ pyInsert d k v) : q ∈ d ∨ q = (k, v) := by
  unfold pyInsert at h
  split at h
  · obtain ⟨p, hp, hpq⟩ := List.mem_map.mp h
    by_cases hk : p.1 = k
    · right
      rw [if_pos hk] at hpq
      exact hpq.symm
    · left
      rw [if_neg hk] at hpq
      exact hpq ▸ hp
  · rcases List.mem_append.mp h with h1 | h1
    · exact Or.inl h1
    · right; simpa using h1

theorem mem_mkDict {α : Type} {q : String × α} {l : List (String × α)}
    (h : q ∈ mkDict l) : q ∈ l := by
  have H : ∀ (ll init : List (String × α)),
      q ∈ ll.foldl (fun d kv => pyInsert d kv.1 kv.2) init → q ∈ init ∨ q ∈ ll := by
    intro ll
    induction ll with
    | nil => intro init hi; exact Or.inl hi
    | cons kv rest ih =>
        obtain ⟨k0, v0⟩ := kv
        intro init hi
        rcases ih (pyInsert init k0 v0) hi with h1 | h1
        · rcases mem_pyInsert h1 with h2 | h2
          · exact Or.inl h2
          · right; rw [h2]; exact List.mem_cons_self _ _
        · right; right; exact h1
  rcases H l [] h with h1 | h1
  · simp at h1
  · exact h1

theorem lookup_eq_none_of_not_mem_keys {α : Type} {l : List (String × α)}
    {a : String} (h : a ∉ l.map Prod.fst) : l.lookup a = none := by
  induction l with
  | nil => simp [List.lookup]
  | cons p rest ih =>
      obtain ⟨k, v⟩ := p
      simp only [List.map_cons, List.mem_cons, not_or] at h
      simp [lookup_cons, h.1, ih h.2]

theorem isSome_lookup_mkDict_of_mem_keys {α : Type} {l : List (String × α)}
    {a : String} (h : a ∈ l.map Prod.fst) : ((mkDict l).lookup a).isSome := by
  rw [lookup_mkDict]
  obtain ⟨p, hp, hpa⟩ := List.mem_map.mp h
  have hrev : p ∈ l.reverse := List.mem_reverse.mpr hp
  clear hp h
  generalize l.reverse = lr at hrev ⊢
  induction lr with
  | nil => simp at hrev
  | cons q rest ih =>
      obtain ⟨kq, vq⟩ := q
      rcases List.mem_cons.mp hrev with h1 | h1
      · subst h1
        simp only [] at hpa
        simp [lookup_cons, hpa.symm]
      · by_cases hq : a = kq <;> simp [lookup_cons, hq, ih h1]

/-! ## Quality-score lemmas -/

theorem pyRound2_def (q : ℚ) :
    pyRound2 q =
      ((if 1 / 2 < q * 100 - ⌊q * 100⌋ then ⌊q * 100⌋ + 1
        else if q * 100 - ⌊q * 100⌋ < 1 / 2 then ⌊q * 100⌋
        else if Even ⌊q * 100⌋ then ⌊q * 100⌋ else ⌊q * 100⌋ + 1 : ℤ) : ℚ) / 100 :=
  rfl

theorem pyRound2_nonneg {q : ℚ} (h0 : 0 ≤ q) : 0 ≤ pyRound2 q := by
  rw [pyRound2_def]
  have hn : (0 : ℤ) ≤ ⌊q * 100⌋ := by
    apply Int.le_floor.mpr
    push_cast
    positivity
  split_ifs
  · have h : (0 : ℤ) ≤ ⌊q * 100⌋ + 1 := by omega
    exact div_nonneg (by exact_mod_cast h) (by norm_num)
  · exact div_nonneg (by exact_mod_cast hn) (by norm_num)
  · exact div_nonneg (by exact_mod_cast hn) (by norm_num)
  · have h : (0 : ℤ) ≤ ⌊q * 100⌋ + 1 := by omega
    exact div_nonneg (by exact_mod_cast h) (by norm_num)

theorem pyRound2_le_one {q : ℚ} (h1 : q ≤ 1) : pyRound2 q ≤ 1 := by
  rw [pyRound2_def]
  have hs : q * 100 ≤ 100 := by linarith
  have hn : ⌊q * 100⌋ ≤ 100 := by
    have h := Int.floor_le_floor (α := ℚ) hs
    have h100 : ⌊(100 : ℚ)⌋ = 100 := by norm_num
    omega
  split_ifs with hgt hlt heven
  · have hn99 : ⌊q * 100⌋ ≤ 99 := by
      by_contra hcon
      push_neg at hcon
      have h100 : ⌊q * 100⌋ = 100 := by omega
      rw [h100] at hgt
      push_cast at hgt
      linarith
    have hz : (⌊q * 100⌋ + 1 : ℤ) ≤ 100 := by omega
    have hq : ((⌊q * 100⌋ + 1 : ℤ) : ℚ) ≤ 100 := by exact_mod_cast hz
    rw [div_le_one (by norm_num : (0:ℚ) < 100)]
    exact hq
  · rw [div_le_one (by norm_num : (0:ℚ) < 100)]
    exact_mod_cast hn
  · rw [div_le_one (by norm_num : (0:ℚ) < 100)]
    exact_mod_cast hn
  · have heq : q * 100 - ⌊q * 100⌋ = 1 / 2 :=
      le_antisymm (not_lt.mp hgt) (not_lt.mp hlt)
    have hn99 : ⌊q * 100⌋ ≤ 99 := by
      by_contra hcon
      push_neg at hcon
      have h100 : ⌊q * 100⌋ = 100 := by omega
      rw [h100] at heq
      push_cast at heq
      linarith
    have hz : (⌊q * 100⌋ + 1 : ℤ) ≤ 100 := by omega
    have hq : ((⌊q * 100⌋ + 1 : ℤ) : ℚ) ≤ 100 := by exact_mod_cast hz
    rw [div_le_one (by norm_num : (0:ℚ) < 100)]
    exact hq

theorem calculate_quality_score_bounds (record : Dict) :
    0 ≤ calculate_quality_score record ∧ calculate_quality_score record ≤ 1 := by
  unfold calculate_quality_score
  split_ifs with h
  · norm_num
  · have hpos : (0 : ℚ) < (record.length : ℚ) := by
      have hp : 0 < record.length := Nat.pos_of_ne_zero h
      exact_mod_cast hp
    constructor
    · exact pyRound2_nonneg (by positivity)
    · apply pyRound2_le_one
      rw [div_le_one hpos]
      exact_mod_cast List.length_filter_le _ record

/-! ## Flattening lemmas -/

theorem flatten_items_no_containers :
    ∀ (record : Dict) (parentKey sep : String) (q : String × Val),
      q ∈ flatten_items record parentKey sep → isContainer q.2 = false := by
  intro record parentKey sep
  induction record, parentKey, sep using flatten_items.induct with
  | case1 _ _ => intro q hq; simp [flatten_items] at hq
  | case2 k d rest parentKey sep ih1 ih2 =>
      intro q hq
      rw [flatten_items] at hq
      rcases List.mem_append.mp hq with h1 | h1
      · exact ih1 q (mem_mkDict h1)
      · exact ih2 q h1
  | case3 k xs rest parentKey sep ih =>
      intro q hq
      rw [flatten_items] at hq
      rcases List.mem_cons.mp hq with h1 | h1
      · rw [h1]; rfl
      · exact ih q h1
  | case4 k v rest parentKey sep hne1 hne2 ih =>
      intro q hq
      rw [flatten_items] at hq
      rcases List.mem_cons.mp hq with h1 | h1
      · subst h1
        cases v with
        | vList xs => exact (hne2 xs rfl).elim
        | vDict d => exact (hne1 d rfl).elim
        | vNull => rfl
        | vBool b => rfl
        | vInt n => rfl
        | vFloat q => rfl
        | vStr s => rfl
      · exact ih q h1
      · exact hne1
      · exact hne2

theorem flatten_record_no_containers {record : Dict} {parentKey sep : String}
    {q : String × Val} (h : q ∈ flatten_record record parentKey sep) :
    isContainer q.2 = false :=
  flatten_items_no_containers record parentKey sep q (mem_mkDict h)

/-! ## Timestamp and key lemmas -/

theorem digitChar_inj_fin : ∀ a b : Fin 10,
    Nat.digitChar a.1 = Nat.digitChar b.1 → a = b := by decide

theorem digitChar_inj {a b : Nat} (ha : a < 10) (hb : b < 10)
    (h : Nat.digitChar a = Nat.digitChar b) : a = b := by
  have hf := digitChar_inj_fin ⟨a, ha⟩ ⟨b, hb⟩ h
  simpa [Fin.ext_iff] using hf

theorem strftimeCompact_inj {t1 t2 : DateTime} (h1 : t1.valid) (h2 : t2.valid)
    (h : strftimeCompact t1 = strftimeCompact t2) :
    t1.year = t2.year ∧ t1.month = t2.month ∧ t1.day = t2.day ∧
    t1.hour = t2.hour ∧ t1.minute = t2.minute ∧ t1.second = t2.second := by
  obtain ⟨hy1, _, hmo1, _, hd1, hh1, hmi1, hs1, _⟩ := h1
  obtain ⟨hy2, _, hmo2, _, hd2, hh2, hmi2, hs2, _⟩ := h2
  unfold strftimeCompact pad4Chars pad2Chars at h
  have hd := congrArg String.data h
  simp only [List.cons_append, List.nil_append, List.cons.injEq, and_true,
    Char.reduceEq, and_self] at hd
  obtain ⟨e1, e2, e3, e4, e5, e6, e7, e8, _, e9, e10, e11, e12, e13, e14⟩ := hd
  have t10 : (0:Nat) < 10 := by norm_num
  have d1 := digitChar_inj (Nat.mod_lt _ t10) (Nat.mod_lt _ t10) e1
  have d2 := digitChar_inj (Nat.mod_lt _ t10) (Nat.mod_lt _ t10) e2
  have d3 := digitChar_inj (Nat.mod_lt _ t10) (Nat.mod_lt _ t10) e3
  have d4 := digitChar_inj (Nat.mod_lt _ t10) (Nat.mod_lt _ t10) e4
  have d5 := digitChar_inj (Nat.mod_lt _ t10) (Nat.mod_lt _ t10) e5
  have d6 := digitChar_inj (Nat.mod_lt _ t10) (Nat.mod_lt _ t10) e6
  have d7 := digitChar_inj (Nat.mod_lt _ t10) (Nat.mod_lt _ t10) e7
  have d8 := digitChar_inj (Nat.mod_lt _ t10) (Nat.mod_lt _ t10) e8
  have d9 := digitChar_inj (Nat.mod_lt _ t10) (Nat.mod_lt _ t10) e9
  have d10 := digitChar_inj (Nat.mod_lt _ t10) (Nat.mod_lt _ t10) e10
  have d11 := digitChar_inj (Nat.mod_lt _ t10) (Nat.mod_lt _ t10) e11
  have d12 := digitChar_inj (Nat.mod_lt _ t10) (Nat.mod_lt _ t10) e12
  have d13 := digitChar_inj (Nat.mod_lt _ t10) (Nat.mod_lt _ t10) e13
  have d14 := digitChar_inj (Nat.mod_lt _ t10) (Nat.mod_lt _ t10) e14
  refine ⟨by omega, by omega, by omega, by omega, by omega, by omega⟩

theorem append_inj_mid {x a b s : String} (h : x ++ a ++ s = x ++ b ++ s) :
    a = b := by
  have hd : (x ++ a ++ s).data = (x ++ b ++ s).data := congrArg String.data h
  simp only [String.data_append, List.append_assoc] at hd
  have h1 := List.append_cancel_left hd
  have h2 := List.append_cancel_right h1
  exact String.ext h2

/-! ## Concrete inputs used by closed theorems -/

/-- Stand-in md5 hex digest (32 characters, the shape of every real
digest), used in closed evaluations whose input records carry their own
id, so the generator output is never consulted. -/
def mdStub : String → String := fun _ => "00000000000000000000000000000000"

/-! ## Claim C8 -/

/-- C8: calling S3Writer.write_data with a format outside the supported set
(parquet, json, csv) raises ValueError (the spec's UnsupportedEncodingError)
before any S3 request is issued: no data object and no metadata object put
is attempted. -/
theorem C8_unsupported_format_no_write :
    ∀ (bucket : String) (data : List Dict) (pfx format : String)
      (metadata : Option Dict) (now : DateTime) (metaCreatedAt : String),
      format ≠ "parquet" → format ≠ "json" → format ≠ "csv" →
      write_data bucket data pfx format metadata now metaCreatedAt =
        (.error ("Unsupported format: " ++ format), []) := by
  intro bucket data pfx format metadata now metaCreatedAt h1 h2 h3
  simp [write_data, h1, h2, h3]

/-- C8 witness: the format "xml" is rejected with no put issued. -/
theorem C8_witness :
    write_data "bucket" [] "raw-data" "xml" none
        ⟨2024, 1, 1, 0, 0, 0, 0⟩ "M" =
      (.error ("Unsupported format: " ++ "xml"), []) :=
  C8_unsupported_format_no_write "bucket" [] "raw-data" "xml" none
    ⟨2024, 1, 1, 0, 0, 0, 0⟩ "M" (by decide) (by decide) (by decide)

/-! ## Claim C9 -/

/-- C9: with the destination bucket configured, a fetch outcome of zero raw
records makes lambda_handler return statusCode 204 with the
"No data to process" message and issue no S3 put at all: the processing and
write stages are never entered, and the body carries a message, not an
error. -/
theorem C9_empty_fetch_yields_204 :
    ∀ (env : Env) (bucketName requestId : String) (md5hex : String → String)
      (createdAt processedAt procTs extractionTs metaCreatedAt : String)
      (now : DateTime),
      env.dataBucketName = some bucketName →
      lambda_handler env requestId (.ok (.vList [])) md5hex
          createdAt processedAt procTs extractionTs metaCreatedAt now =
        ({ statusCode := 204
           body := jsonDumps (.vDict [("message", .vStr "No data to process")]) },
         []) := by
  intro env bucketName requestId md5hex c p pts ets mts now h
  simp [lambda_handler, h, pyTruthy]

/-- C9 witness: a concrete environment with the bucket set. -/
theorem C9_witness :
    lambda_handler ⟨none, some "data-bucket", none⟩ "req-1" (.ok (.vList []))
        mdStub "T1" "T2" "T3" "T4" "T5" ⟨2024, 1, 1, 0, 0, 0, 0⟩ =
      ({ statusCode := 204
         body := jsonDumps (.vDict [("message", .vStr "No data to process")]) },
       []) :=
  C9_empty_fetch_yields_204 ⟨none, some "data-bucket", none⟩ "data-bucket"
    "req-1" mdStub "T1" "T2" "T3" "T4" "T5" ⟨2024, 1, 1, 0, 0, 0, 0⟩ rfl

/-! ## Claim C10 -/

/-- C10: DataProcessor.process silently drops every empty raw record: an
empty mapping anywhere in the input contributes no ProcessedRecord (and
processing continues with the rest), and an input consisting only of empty
mappings yields the empty output. -/
theorem C10_process_drops_empty_records :
    (∀ (md5hex : String → String) (createdAt processedAt : String)
        (xs ys : List Val),
      process md5hex createdAt processedAt (xs ++ .vDict [] :: ys) =
        process md5hex createdAt processedAt (xs ++ ys)) ∧
    (∀ (md5hex : String → String) (createdAt processedAt : String)
        (raws : List Val),
      (∀ v ∈ raws, v = .vDict []) →
      process md5hex createdAt processedAt raws = []) := by
  constructor
  · intro md c p xs ys
    simp [process, List.filterMap_append, List.filterMap_cons, processElem,
      process_record]
  · intro md c p raws h
    simp only [process]
    rw [List.filterMap_eq_nil_iff]
    intro v hv
    rw [h v hv]
    rfl

/-- C10 witness: an empty mapping between two records is dropped, and a list
of only empty mappings processes to the empty list. -/
theorem C10_witness :
    process mdStub "T1" "T2"
        ([.vDict [("id", .vInt 1)]] ++ .vDict [] :: [.vDict [("id", .vInt 2)]]) =
      process mdStub "T1" "T2"
        ([.vDict [("id", .vInt 1)]] ++ [.vDict [("id", .vInt 2)]]) ∧
    process mdStub "T1" "T2" [.vDict [], .vDict []] = [] :=
  ⟨C10_process_drops_empty_records.1 mdStub "T1" "T2"
      [.vDict [("id", .vInt 1)]] [.vDict [("id", .vInt 2)]],
   C10_process_drops_empty_records.2 mdStub "T1" "T2"
      [.vDict [], .vDict []] (by simp)⟩

/-! ## Claim C7 -/

theorem lookup_format_after_custom (md : Dict) :
    ∀ acc : List (String × String),
      (∀ kv ∈ md, normalizeMetaKey kv.1 ≠ "format") →
      acc.lookup "format" = some "json" →
      (md.foldl (fun acc kv =>
        if kv.1.length + (pyStr kv.2).length < 1024 then
          pyInsert acc (normalizeMetaKey kv.1) (pyStr kv.2)
        else acc) acc).lookup "format" = some "json" := by
  induction md with
  | nil => intro acc _ hacc; exact hacc
  | cons kv rest ih =>
      intro acc h hacc
      rw [List.foldl_cons]
      apply ih _ (fun w hw => h w (by simp [hw]))
      split_ifs with hlen
      · rw [lookup_pyInsert]
        rw [if_neg (fun hh => h kv (by simp) hh.symm)]
        exact hacc
      · exact hacc

/-- C7 counterexample: the claim quantifies over every metadata mapping and
asserts the stored format tag is "json", but a caller metadata entry named
"format" overwrites the tag; here the data put carries the tag "avro" (and
the sidecar put carries no Metadata map at all). -/
theorem C7_counterexample :
    ((write_data "bucket" [] "raw-data" "parquet"
        (some [("format", .vStr "avro")]) ⟨2024, 1, 1, 0, 0, 0, 0⟩ "M").2.map
      (fun put => put.metadata.lookup "format")) = [some "avro", none] ∧
    some ("avro" : String) ≠ some ("json" : String) := by
  constructor
  · rfl
  · decide

/-- C7 amended: for every record list, prefix, metadata and clock reading,
write_data with format "parquet" returns exactly the same outcome (same
object key, same body bytes, same content type, same puts) as with format
"json"; and whenever the caller metadata contains no entry whose normalized
key is "format", the stored format tag on the data object is "json" (the
parquet fallback is reported as json). -/
theorem C7_parquet_is_json_fallback :
    ∀ (bucket : String) (data : List Dict) (pfx : String)
      (metadata : Option Dict) (now : DateTime) (metaCreatedAt : String),
      write_data bucket data pfx "parquet" metadata now metaCreatedAt =
        write_data bucket data pfx "json" metadata now metaCreatedAt ∧
      ((∀ kv ∈ metadata.getD [], normalizeMetaKey kv.1 ≠ "format") →
        ((write_data bucket data pfx "parquet" metadata now metaCreatedAt).2.head?.map
          (fun put => put.metadata.lookup "format")) = some (some "json")) := by
  intro bucket data pfx metadata now metaCreatedAt
  constructor
  · simp [write_data]
  · intro h
    have hstep :
        (write_data bucket data pfx "parquet" metadata now metaCreatedAt).2.head?.map
            (fun put => put.metadata.lookup "format") =
          some ((match metadata with
            | some md => md.foldl
                (fun (acc : List (String × String)) (kv : String × Val) =>
                  if kv.1.length + (pyStr kv.2).length < 1024 then
                    pyInsert acc (normalizeMetaKey kv.1) (pyStr kv.2)
                  else acc)
                [("record_count", toString data.length), ("format", "json"),
                 ("timestamp", strftimeCompact now)]
            | none => [("record_count", toString data.length), ("format", "json"),
                 ("timestamp", strftimeCompact now)]).lookup "format") := rfl
    rw [hstep]
    cases metadata with
    | none => simp [lookup_cons]
    | some md =>
        have hmd : ∀ kv ∈ md, normalizeMetaKey kv.1 ≠ "format" := by simpa using h
        have hfold := lookup_format_after_custom md
          [("record_count", toString data.length), ("format", "json"),
           ("timestamp", strftimeCompact now)] hmd (by simp [lookup_cons])
        simp [hfold]

/-- C7 witness: a concrete call with no caller metadata. -/
theorem C7_witness :
    write_data "bucket" [] "raw-data" "parquet" none ⟨2024, 1, 1, 0, 0, 0, 0⟩ "M" =
      write_data "bucket" [] "raw-data" "json" none ⟨2024, 1, 1, 0, 0, 0, 0⟩ "M" ∧
    ((write_data "bucket" [] "raw-data" "parquet" none
        ⟨2024, 1, 1, 0, 0, 0, 0⟩ "M").2.head?.map
      (fun put => put.metadata.lookup "format")) = some (some "json") :=
  ⟨(C7_parquet_is_json_fallback "bucket" [] "raw-data" none
      ⟨2024, 1, 1, 0, 0, 0, 0⟩ "M").1,
   (C7_parquet_is_json_fallback "bucket" [] "raw-data" none
      ⟨2024, 1, 1, 0, 0, 0, 0⟩ "M").2 (by simp)⟩

/-! ## Claim C3 -/

/-- C3 counterexample: two clock readings in the same second whose
timestamps differ at sub-second granularity (microsecond 0 versus 500000)
produce the SAME object key, so the second write would overwrite the first;
the claim asserts such writes produce distinct keys. -/
theorem C3_counterexample :
    (⟨2024, 1, 1, 0, 0, 0, 0⟩ : DateTime) ≠ ⟨2024, 1, 1, 0, 0, 0, 500000⟩ ∧
    (⟨2024, 1, 1, 0, 0, 0, 0⟩ : DateTime).microsecond ≠
      (⟨2024, 1, 1, 0, 0, 0, 500000⟩ : DateTime).microsecond ∧
    (write_data "bucket" [] "raw-data/year=2024/month=01/day=01" "json" none
        ⟨2024, 1, 1, 0, 0, 0, 0⟩ "M").1 =
      .ok "raw-data/year=2024/month=01/day=01/data_20240101_000000.json" ∧
    (write_data "bucket" [] "raw-data/year=2024/month=01/day=01" "json" none
        ⟨2024, 1, 1, 0, 0, 0, 500000⟩ "M").1 =
      .ok "raw-data/year=2024/month=01/day=01/data_20240101_000000.json" := by
  refine ⟨?_, by decide, rfl, rfl⟩
  intro h
  exact absurd (congrArg DateTime.microsecond h) (by decide)

/-- C3 amended: the object key always has the form
prefix/data_TIMESTAMP.extension with the timestamp at SECOND granularity
("%Y%m%d_%H%M%S"); two writes whose timestamps differ in some
second-granularity component (year down to second) produce distinct keys,
while writes within the same second produce the same key and do overwrite
(the claim's sub-second distinctness does not hold). -/
theorem C3_key_form_and_uniqueness :
    ∀ (bucket : String) (data : List Dict) (pfx : String)
      (metadata : Option Dict) (metaCreatedAt : String) (t1 t2 : DateTime)
      (format ext : String),
      t1.valid → t2.valid →
      (t1.year, t1.month, t1.day, t1.hour, t1.minute, t1.second) ≠
        (t2.year, t2.month, t2.day, t2.hour, t2.minute, t2.second) →
      ((format = "parquet" ∨ format = "json") ∧ ext = "json") ∨
        (format = "csv" ∧ ext = "csv") →
      ∃ k1 k2,
        (write_data bucket data pfx format metadata t1 metaCreatedAt).1 = .ok k1 ∧
        (write_data bucket data pfx format metadata t2 metaCreatedAt).1 = .ok k2 ∧
        k1 = pfx ++ "/data_" ++ strftimeCompact t1 ++ "." ++ ext ∧
        k2 = pfx ++ "/data_" ++ strftimeCompact t2 ++ "." ++ ext ∧
        k1 ≠ k2 := by
  intro bucket data pfx metadata metaCreatedAt t1 t2 format ext hv1 hv2 hne hfmt
  have hts : strftimeCompact t1 ≠ strftimeCompact t2 := by
    intro hts
    obtain ⟨e1, e2, e3, e4, e5, e6⟩ := strftimeCompact_inj hv1 hv2 hts
    exact hne (by rw [e1, e2, e3, e4, e5, e6])
  have hkey : ∀ suf : String,
      pfx ++ "/data_" ++ strftimeCompact t1 ++ suf ≠
        pfx ++ "/data_" ++ strftimeCompact t2 ++ suf := by
    intro suf hk
    exact hts (append_inj_mid hk)
  have hdot : ∀ t : DateTime,
      pfx ++ "/data_" ++ strftimeCompact t ++ "." ++ ext =
        pfx ++ "/data_" ++ strftimeCompact t ++ ("." ++ ext) := by
    intro t
    rw [String.append_assoc]
  rcases hfmt with ⟨hf, he⟩ | ⟨hf, he⟩
  · subst he
    refine ⟨pfx ++ "/data_" ++ strftimeCompact t1 ++ ".json",
            pfx ++ "/data_" ++ strftimeCompact t2 ++ ".json", ?_, ?_, ?_, ?_, ?_⟩
    · rcases hf with hf | hf <;> subst hf <;> rfl
    · rcases hf with hf | hf <;> subst hf <;> rfl
    · rw [hdot]; rfl
    · rw [hdot]; rfl
    · exact hkey ".json"
  · subst hf he
    refine ⟨pfx ++ "/data_" ++ strftimeCompact t1 ++ ".csv",
            pfx ++ "/data_" ++ strftimeCompact t2 ++ ".csv", rfl, rfl, ?_, ?_, ?_⟩
    · rw [hdot]; rfl
    · rw [hdot]; rfl
    · exact hkey ".csv"

/-- C3 witness: two valid clock readings one second apart give distinct
keys of the documented form. -/
theorem C3_witness :
    ∃ k1 k2,
      (write_data "bucket" [] "raw-data" "json" none
          ⟨2024, 1, 1, 0, 0, 0, 0⟩ "M").1 = .ok k1 ∧
      (write_data "bucket" [] "raw-data" "json" none
          ⟨2024, 1, 1, 0, 0, 1, 0⟩ "M").1 = .ok k2 ∧
      k1 = "raw-data" ++ "/data_" ++ strftimeCompact ⟨2024, 1, 1, 0, 0, 0, 0⟩
            ++ "." ++ "json" ∧
      k2 = "raw-data" ++ "/data_" ++ strftimeCompact ⟨2024, 1, 1, 0, 0, 1, 0⟩
            ++ "." ++ "json" ∧
      k1 ≠ k2 :=
  C3_key_form_and_uniqueness "bucket" [] "raw-data" none "M"
    ⟨2024, 1, 1, 0, 0, 0, 0⟩ ⟨2024, 1, 1, 0, 0, 1, 0⟩ "json" "json"
    (by decide) (by decide) (by decide) (Or.inl ⟨Or.inr rfl, rfl⟩)

/-! ## Claim C4 -/

/-- Attempt stream observed by the backoff wrapper in the counterexample:
the first HTTP exchange is a 404 response (raise_for_status raises
HTTPError), the second succeeds with one record. -/
def c4Attempt : Nat → Except PyError Val :=
  fun i => fetch_data_once (if i = 0 then .response 404 none
    else .response 200 (some (.vList [.vDict [("id", .vInt 1)]])))

/-- C4 counterexample: a 4xx response raises requests.HTTPError, which IS a
RequestException and therefore IS retried by the backoff decorator: the
wrapped fetch_data makes a second attempt after the 404 and returns its
result, instead of raising after the first attempt as the claim states. -/
theorem C4_counterexample :
    c4Attempt 0 = .error (.httpError 404) ∧
    isRequestException (.httpError 404) = true ∧
    fetch_data_retried c4Attempt = (.ok (.vList [.vDict [("id", .vInt 1)]]), 2) :=
  ⟨rfl, rfl, rfl⟩

theorem backoffGo_calls_le (attempt : Nat → Except PyError Val) :
    ∀ (budget i : Nat), 1 ≤ budget → (backoffGo attempt i budget).2 ≤ i + budget := by
  intro budget
  induction budget with
  | zero => intro i h; omega
  | succ b ih =>
      intro i _
      rw [backoffGo]
      cases attempt i with
      | ok v =>
          dsimp only
          omega
      | error e =>
          dsimp only
          split_ifs with hretry
          · have hb : b ≠ 0 := by
              rcases Bool.and_eq_true_iff.mp hretry with ⟨_, hb⟩
              simpa using hb
            have := ih (i + 1) (by omega)
            omega
          · dsimp only
            omega

/-- C4 amended: the backoff decorator is configured with max_tries 3 and
max_time 60 seconds; the wrapped fetch_data retries every fault of the
RequestException family — transport faults, timeouts AND the HTTPError
raised by raise_for_status on a 4xx/5xx response — and never makes more
than 3 attempts; a fault outside that family (the ValueError from an
unparseable JSON body) propagates after the first attempt with no retry. -/
theorem C4_retry_classification :
    max_tries = 3 ∧ max_time = 60 ∧
    (∀ attempt : Nat → Except PyError Val,
      attempt 0 = .error .valueError →
      fetch_data_retried attempt = (.error .valueError, 1)) ∧
    (∀ (attempt : Nat → Except PyError Val) (e : PyError),
      isRequestException e = true → (∀ i, attempt i = .error e) →
      fetch_data_retried attempt = (.error e, 3)) ∧
    (∀ attempt : Nat → Except PyError Val,
      (fetch_data_retried attempt).2 ≤ 3) ∧
    (∀ (attempt : Nat → Except PyError Val) (e : PyError) (v : Val),
      isRequestException e = true →
      attempt 0 = .error e → attempt 1 = .ok v →
      fetch_data_retried attempt = (.ok v, 2)) := by
  refine ⟨rfl, rfl, ?_, ?_, ?_, ?_⟩
  · intro attempt h0
    simp [fetch_data_retried, max_tries, backoffGo, h0, isRequestException]
  · intro attempt e he hall
    simp [fetch_data_retried, max_tries, backoffGo, hall 0, hall 1, hall 2, he]
  · intro attempt
    simpa using backoffGo_calls_le attempt 3 0 (by omega)
  · intro attempt e v he h0 h1
    simp [fetch_data_retried, max_tries, backoffGo, h0, h1, he]

/-- C4 witness: concrete attempt streams exercising the no-retry branch
(ValueError), the budget-exhaustion branch (persistent timeout) and the
retry-then-success branch (connection fault then a page). -/
theorem C4_witness :
    fetch_data_retried (fun _ => .error .valueError) = (.error .valueError, 1) ∧
    fetch_data_retried (fun _ => .error .timeout) = (.error .timeout, 3) ∧
    fetch_data_retried
        (fun i => if i = 0 then .error .connectionError else .ok (.vList [])) =
      (.ok (.vList []), 2) :=
  ⟨C4_retry_classification.2.2.1 (fun _ => .error .valueError) rfl,
   C4_retry_classification.2.2.2.1 (fun _ => .error .timeout) .timeout rfl
     (fun _ => rfl),
   C4_retry_classification.2.2.2.2.2
     (fun i => if i = 0 then .error .connectionError else .ok (.vList []))
     .connectionError (.vList []) rfl rfl rfl⟩

/-! ## Claim C5 -/

/-- Concatenation of n consecutive pages starting at a given page number,
in arrival order. -/
def concatPages (pages : Nat → List Val) : Nat → Nat → List Val
  | _, 0 => []
  | start, n + 1 => pages start ++ concatPages pages (start + 1) n

theorem paginatedGo_complete (pages : Nat → List Val) (maxPages : Option Int) :
    ∀ (n page calls fuel : Nat) (acc : List Val),
      (∀ p, page ≤ p → p < page + n → pages p ≠ []) →
      pages (page + n) = [] →
      (∀ p, page ≤ p → p ≤ page + n →
        (maxPagesTruthy maxPages && decide ((p : Int) > maxPages.getD 0)) = false) →
      n + 1 ≤ fuel →
      paginatedGo (fun p => .ok (.vList (pages p))) maxPages fuel page acc calls =
        some (.ok (acc ++ concatPages pages page n), calls + (n + 1)) := by
  intro n
  induction n with
  | zero =>
      intro page calls fuel acc hne hempty hmp hfuel
      obtain ⟨f, rfl⟩ : ∃ f, fuel = f + 1 := ⟨fuel - 1, by omega⟩
      rw [paginatedGo, hmp page le_rfl (by omega)]
      rw [Nat.add_zero] at hempty
      simp [hempty, pyTruthy, concatPages]
  | succ n ih =>
      intro page calls fuel acc hne hempty hmp hfuel
      obtain ⟨f, rfl⟩ : ∃ f, fuel = f + 1 := ⟨fuel - 1, by omega⟩
      rw [paginatedGo, hmp page le_rfl (by omega)]
      have hpage : pages page ≠ [] := hne page le_rfl (by omega)
      have hrec := ih (page + 1) (calls + 1) f (acc ++ pages page)
        (fun p h1 h2 => hne p (by omega) (by omega))
        (by rw [show page + 1 + n = page + (n + 1) by omega]; exact hempty)
        (fun p h1 h2 => hmp p (by omega) (by omega))
        (by omega)
      have htr : pyTruthy (.vList (pages page)) = true := by
        simp [pyTruthy, hpage]
      simp only [Bool.false_eq_true, if_false, htr, not_true, pyExtend, hrec,
        concatPages, List.append_assoc]
      simp
      omega

theorem paginatedGo_calls_bound (fetchPage : Nat → Except PyError Val) (m : Int)
    (hm : 0 < m) :
    ∀ (fuel page calls : Nat) (acc : List Val)
      (out : Except PyError (List Val)) (calls' : Nat),
      (page : Int) ≤ m + 1 →
      paginatedGo fetchPage (some m) fuel page acc calls = some (out, calls') →
      (calls' : Int) ≤ calls + (m + 1 - page) := by
  intro fuel
  induction fuel with
  | zero =>
      intro page calls acc out calls' hpage h
      rw [paginatedGo] at h
      exact absurd h (by simp)
  | succ f ih =>
      intro page calls acc out calls' hpage h
      rw [paginatedGo] at h
      by_cases hcond :
          (maxPagesTruthy (some m) &&
            decide ((page : Int) > (Option.getD (some m) 0))) = true
      · rw [if_pos hcond] at h
        obtain ⟨h1, h2⟩ := (Prod.mk.injEq _ _ _ _).mp (Option.some_inj.mp h)
        omega
      · rw [if_neg hcond] at h
        have hple : (page : Int) ≤ m := by
          have ht : maxPagesTruthy (some m) = true := by
            simp [maxPagesTruthy]
            omega
          rw [ht, Bool.true_and] at hcond
          simpa using hcond
        cases hf : fetchPage page with
        | error e =>
            rw [hf] at h
            dsimp only at h
            obtain ⟨h1, h2⟩ := (Prod.mk.injEq _ _ _ _).mp (Option.some_inj.mp h)
            omega
        | ok v =>
            rw [hf] at h
            dsimp only at h
            by_cases htr : pyTruthy v = true
            · rw [if_neg (by simp [htr])] at h
              cases hx : pyExtend acc v with
              | error e =>
                  rw [hx] at h
                  dsimp only at h
                  obtain ⟨h1, h2⟩ := (Prod.mk.injEq _ _ _ _).mp (Option.some_inj.mp h)
                  omega
              | ok acc2 =>
                  rw [hx] at h
                  dsimp only at h
                  have := ih (page + 1) (calls + 1) acc2 out calls' (by omega) h
                  omega
            · rw [if_pos (by simp [htr])] at h
              obtain ⟨h1, h2⟩ := (Prod.mk.injEq _ _ _ _).mp (Option.some_inj.mp h)
              omega

/-- Page source of the C5 counterexample: one non-empty page, then empty. -/
def c5Pages : Nat → List Val :=
  fun p => if p = 1 then [.vDict [("id", .vInt 1)]] else []

/-- C5 counterexample: the claim says a supplied max_pages stops the loop
after at most max_pages fetches, but Python evaluates `if max_pages and
page > max_pages` with 0 falsy, so max_pages = 0 means NO limit: with a
supplied max_pages of 0 the loop still fetches page 1 (returning its
record) and page 2 — two fetch_data calls instead of none. -/
theorem C5_counterexample :
    fetch_paginated_data (fun p => .ok (.vList (c5Pages p))) (some 0) 5 =
      some (.ok [.vDict [("id", .vInt 1)]], 2) := rfl

/-- C5 amended: for a source with N non-empty pages followed by an empty
page, fetch_paginated_data with no max_pages, or with a max_pages above N
(in particular any non-zero one above N), terminates with the concatenation
of the N pages in arrival order after exactly N + 1 fetch_data calls (the
last call fetches the terminating empty page); and for every source, a
supplied POSITIVE max_pages bounds the number of fetch_data calls by
max_pages. A supplied max_pages of 0 is falsy in Python and means no limit. -/
theorem C5_pagination_termination :
    (∀ (pages : Nat → List Val) (N fuel : Nat) (maxPages : Option Int),
      (∀ p, 1 ≤ p → p ≤ N → pages p ≠ []) →
      pages (N + 1) = [] →
      N + 2 ≤ fuel →
      (maxPages = none ∨ ∃ m : Int, maxPages = some m ∧ (N : Int) < m) →
      fetch_paginated_data (fun p => .ok (.vList (pages p))) maxPages fuel =
        some (.ok (concatPages pages 1 N), N + 1)) ∧
    (∀ (fetchPage : Nat → Except PyError Val) (m : Int) (fuel : Nat)
        (out : Except PyError (List Val)) (calls : Nat),
      0 < m →
      fetch_paginated_data fetchPage (some m) fuel = some (out, calls) →
      (calls : Int) ≤ m) := by
  constructor
  · intro pages N fuel maxPages hne hempty hfuel hmp
    have hcomplete := paginatedGo_complete pages maxPages N 1 0 fuel []
      (fun p h1 h2 => hne p h1 (by omega))
      (by rw [show 1 + N = N + 1 by omega]; exact hempty)
      ?_ (by omega)
    · simpa [fetch_paginated_data] using hcomplete
    · intro p h1 h2
      rcases hmp with rfl | ⟨mm, rfl, hmm⟩
      · rfl
      · have : (p : Int) ≤ mm := by
          have hp : (p : Int) ≤ (N : Int) + 1 := by exact_mod_cast (by omega : p ≤ N + 1)
          omega
        simp [maxPagesTruthy]
        intro _
        omega
  · intro fetchPage m fuel out calls hm h
    have := paginatedGo_calls_bound fetchPage m hm fuel 1 0 [] out calls
      (by omega) (by simpa [fetch_paginated_data] using h)
    omega

/-- C5 witness: the no-limit run on a source that is empty from page 1
(N = 0) makes exactly one fetch call and returns no records, and the
positive-max_pages bound is exercised on a concrete two-page run. -/
theorem C5_witness :
    fetch_paginated_data (fun p => .ok (.vList ((fun _ => []) p))) none 2 =
      some (.ok (concatPages (fun _ => []) 1 0), 1) ∧
    ((2 : Nat) : Int) ≤ 5 :=
  ⟨C5_pagination_termination.1 (fun _ => []) 0 2 none
      (fun p h1 h2 => absurd (h1.trans h2) (by norm_num)) rfl (by norm_num)
      (Or.inl rfl),
   C5_pagination_termination.2 (fun p => .ok (.vList (c5Pages p))) 5 5
      (.ok [.vDict [("id", .vInt 1)]]) 2 (by norm_num) rfl⟩

/-! ## Shape of a processed record -/

theorem process_record_eq_some {md5hex : String → String}
    {createdAt processedAt : String} {record r : Dict}
    (h : process_record md5hex createdAt processedAt record = some r) :
    record.isEmpty = false ∧
    r = mkDict
      ([("id", Val.vStr (pyStr ((record.lookup "id").getD
          (Val.vStr (generate_id md5hex record))))),
        ("created_at", Val.vStr createdAt),
        ("processed_at", Val.vStr processedAt)]
        ++ flatten_record record "" "_"
        ++ [("data_quality_score", Val.vFloat (calculate_quality_score record)),
            ("is_complete", Val.vBool (check_completeness record))]) := by
  unfold process_record at h
  cases he : record.isEmpty with
  | true => rw [he] at h; simp at h
  | false =>
      rw [he] at h
      simp only [Bool.false_eq_true, if_false, Option.some_inj] at h
      exact ⟨rfl, h.symm⟩

theorem processed_record_lookup {md5hex : String → String}
    {createdAt processedAt : String} {record r : Dict}
    (h : process_record md5hex createdAt processedAt record = some r)
    (a : String) :
    r.lookup a =
      (([("is_complete", Val.vBool (check_completeness record)),
         ("data_quality_score", Val.vFloat (calculate_quality_score record))].lookup a).or
       ((((flatten_record record "" "_").reverse).lookup a).or
        ([("processed_at", Val.vStr processedAt),
          ("created_at", Val.vStr createdAt),
          ("id", Val.vStr (pyStr ((record.lookup "id").getD
            (Val.vStr (generate_id md5hex record)))))].lookup a))) := by
  obtain ⟨-, rfl⟩ := process_record_eq_some h
  rw [lookup_mkDict]
  rw [show ∀ l1 l2 l3 : Dict, (l1 ++ l2 ++ l3).reverse =
      l3.reverse ++ (l2.reverse ++ l1.reverse) from fun _ _ _ => by simp]
  rw [lookup_append, lookup_append]
  rfl

/-! ## Claim C6 -/

/-- C6: the data quality score is the filled-over-total fraction of the
pre-flattened record rounded to two decimals, lies in [0, 1], is exactly 0
for a record with zero fields (no division fault: the zero-field case is a
separate branch), and is exactly the value _process_record stores under
data_quality_score (the dict-display entry comes after the flatten splice,
so nothing overwrites it). -/
theorem C6_quality_score :
    ∀ record : Dict,
      0 ≤ calculate_quality_score record ∧
      calculate_quality_score record ≤ 1 ∧
      (record = [] → calculate_quality_score record = 0) ∧
      (record ≠ [] →
        calculate_quality_score record =
          pyRound2
            ((((record.filter
                (fun kv => !isNone kv.2 && !eqEmptyStr kv.2)).length : ℕ) : ℚ)
              / (record.length : ℚ))) ∧
      (∀ (md5hex : String → String) (createdAt processedAt : String) (r : Dict),
        process_record md5hex createdAt processedAt record = some r →
        r.lookup "data_quality_score" =
          some (.vFloat (calculate_quality_score record))) := by
  intro record
  obtain ⟨hb1, hb2⟩ := calculate_quality_score_bounds record
  refine ⟨hb1, hb2, ?_, ?_, ?_⟩
  · intro h
    subst h
    rfl
  · intro h
    unfold calculate_quality_score
    rw [if_neg (by simpa using h)]
  · intro md5hex createdAt processedAt r hr
    rw [processed_record_lookup hr]
    simp [lookup_cons]

/-- C6 witness: the zero-field record scores exactly 0, and a concrete
one-field record's stored score matches the computed one. -/
theorem C6_witness :
    calculate_quality_score [] = 0 ∧
    ∃ r : Dict,
      process_record mdStub "T1" "T2" [("id", Val.vStr "x")] = some r ∧
      r.lookup "data_quality_score" =
        some (.vFloat (calculate_quality_score [("id", Val.vStr "x")])) :=
  ⟨(C6_quality_score []).2.2.1 rfl,
   ⟨_, rfl, (C6_quality_score [("id", Val.vStr "x")]).2.2.2.2
      mdStub "T1" "T2" _ rfl⟩⟩

/-! ## Claim C2 -/

theorem pyRound2_zero : pyRound2 0 = 0 := by
  rw [pyRound2_def]
  norm_num

theorem pyRound2_one : pyRound2 1 = 1 := by
  rw [pyRound2_def]
  norm_num

/-- C2 counterexample: the claim asserts every output record has a
non-empty string id, but for the input record with an empty-string id the
flatten splice overwrites the coerced id entry with the source value, so
the single output record's id is the empty string. -/
theorem C2_counterexample :
    process mdStub "T1" "T2" [.vDict [("id", .vStr "")]] =
      [[("id", .vStr ""), ("created_at", .vStr "T1"), ("processed_at", .vStr "T2"),
        ("data_quality_score", .vFloat 0), ("is_complete", .vBool true)]] ∧
    ((process mdStub "T1" "T2" [.vDict [("id", .vStr "")]]).map
      (fun r => r.lookup "id")) = [some (.vStr "")] ∧
    ("" : String).length = 0 := by
  have h1 : process mdStub "T1" "T2" [.vDict [("id", .vStr "")]] =
      [[("id", .vStr ""), ("created_at", .vStr "T1"), ("processed_at", .vStr "T2"),
        ("data_quality_score", .vFloat 0), ("is_complete", .vBool true)]] := by
    simp [process, processElem, process_record, flatten_record, flatten_items,
      mkDict, pyInsert, calculate_quality_score, check_completeness,
      required_fields, pyStr, isNone, eqEmptyStr, List.lookup, pyRound2_zero]
  refine ⟨h1, ?_, rfl⟩
  rw [h1]
  rfl

/-- C2 amended: every ProcessedRecord has id, created_at and processed_at
keys, and flattening is total (no value is a nested mapping or a sequence).
The id is NOT always a non-empty string, because the flatten splice of the
source record comes after the coerced id entry and overwrites it: when
neither the source nor its flattening carries an "id" field, the id is the
generated 32-character hash (hence non-empty); likewise the timestamps hold
the processing-time values whenever the flattening does not override them. -/
theorem C2_processed_record_shape :
    (∀ (md5hex : String → String) (createdAt processedAt : String)
        (raws : List Val) (r : Dict),
      r ∈ process md5hex createdAt processedAt raws →
      ((r.lookup "id").isSome ∧ (r.lookup "created_at").isSome ∧
        (r.lookup "processed_at").isSome) ∧
      (∀ kv ∈ r, isContainer kv.2 = false)) ∧
    (∀ (md5hex : String → String) (createdAt processedAt : String)
        (record r : Dict),
      (∀ s, (md5hex s).length = 32) →
      process_record md5hex createdAt processedAt record = some r →
      (record.lookup "id" = none →
        "id" ∉ (flatten_record record "" "_").map Prod.fst →
        ∃ hash, r.lookup "id" = some (.vStr hash) ∧
          hash.length = 32 ∧ hash ≠ "") ∧
      ("created_at" ∉ (flatten_record record "" "_").map Prod.fst →
        r.lookup "created_at" = some (.vStr createdAt)) ∧
      ("processed_at" ∉ (flatten_record record "" "_").map Prod.fst →
        r.lookup "processed_at" = some (.vStr processedAt))) := by
  constructor
  · intro md5hex createdAt processedAt raws r hr
    simp only [process, List.mem_filterMap] at hr
    obtain ⟨v, hv, hfv⟩ := hr
    cases v with
    | vNull => simp [processElem] at hfv
    | vBool b => simp [processElem] at hfv
    | vInt n => simp [processElem] at hfv
    | vFloat q => simp [processElem] at hfv
    | vStr s => simp [processElem] at hfv
    | vList xs => simp [processElem] at hfv
    | vDict record =>
        dsimp only [processElem] at hfv
        cases hpr : process_record md5hex createdAt processedAt record with
        | none => rw [hpr] at hfv; simp at hfv
        | some d =>
            rw [hpr] at hfv
            dsimp only at hfv
            by_cases hd : d.isEmpty
            · simp [hd] at hfv
            · simp only [hd, Bool.false_eq_true, if_false, Option.some_inj] at hfv
              subst hfv
              obtain ⟨hne, hde⟩ := process_record_eq_some hpr
              subst hde
              constructor
              · refine ⟨?_, ?_, ?_⟩ <;>
                  (apply isSome_lookup_mkDict_of_mem_keys; simp)
              · intro kv hkv
                have hmem := mem_mkDict hkv
                rcases List.mem_append.mp hmem with h1 | h1
                · rcases List.mem_append.mp h1 with h2 | h2
                  · simp only [List.mem_cons, List.not_mem_nil, or_false] at h2
                    rcases h2 with h3 | h3 | h3 <;> (subst h3; rfl)
                  · exact flatten_record_no_containers h2
                · simp only [List.mem_cons, List.not_mem_nil, or_false] at h1
                  rcases h1 with h3 | h3 <;> (subst h3; rfl)
  · intro md5hex createdAt processedAt record r hmd5 heq
    have hflatlookup : ∀ a : String,
        a ∉ (flatten_record record "" "_").map Prod.fst →
        (flatten_record record "" "_").reverse.lookup a = none := by
      intro a ha
      apply lookup_eq_none_of_not_mem_keys
      simpa [List.map_reverse] using ha
    refine ⟨?_, ?_, ?_⟩
    · intro hid hflat
      rw [processed_record_lookup heq "id"]
      rw [hflatlookup "id" hflat]
      simp only [lookup_cons, List.lookup, hid, Option.getD_none]
      refine ⟨generate_id md5hex record, ?_, ?_, ?_⟩
      · simp [pyStr]
      · exact hmd5 _
      · intro hcon
        have hlen := hmd5 (jsonDumps (sortKeysDeep (.vDict record)))
        rw [show generate_id md5hex record =
            md5hex (jsonDumps (sortKeysDeep (.vDict record))) from rfl] at hcon
        rw [hcon] at hlen
        simp at hlen
    · intro hflat
      rw [processed_record_lookup heq "created_at"]
      rw [hflatlookup "created_at" hflat]
      simp [lookup_cons]
    · intro hflat
      rw [processed_record_lookup heq "processed_at"]
      rw [hflatlookup "processed_at" hflat]
      simp [lookup_cons]

/-- Concrete processed record used by the C2 witness: the output of
process on the one-record input with id "x". -/
def c2SampleProcessed : Dict :=
  [("id", Val.vStr "x"), ("created_at", Val.vStr "T1"),
   ("processed_at", Val.vStr "T2"), ("data_quality_score", Val.vFloat 1),
   ("is_complete", Val.vBool true)]

/-- C2 witness: the first part applied to a concrete one-record input, the
second to a record with no id field (whose flattening has only the key
"name"), the hash function instantiated with a 32-character digest. -/
theorem C2_witness :
    ((c2SampleProcessed.lookup "id").isSome ∧
      (c2SampleProcessed.lookup "created_at").isSome ∧
      (c2SampleProcessed.lookup "processed_at").isSome) ∧
    (∃ r : Dict,
      process_record mdStub "T1" "T2" [("name", Val.vStr "Ana")] = some r ∧
      (∃ hash, r.lookup "id" = some (.vStr hash) ∧
        hash.length = 32 ∧ hash ≠ "") ∧
      r.lookup "created_at" = some (.vStr "T1") ∧
      r.lookup "processed_at" = some (.vStr "T2")) := by
  constructor
  · exact (C2_processed_record_shape.1 mdStub "T1" "T2"
      [.vDict [("id", .vStr "x")]] c2SampleProcessed
      (by simp [c2SampleProcessed, process, processElem, process_record,
        flatten_record, flatten_items, mkDict, pyInsert,
        calculate_quality_score, check_completeness, required_fields, pyStr,
        isNone, eqEmptyStr, List.lookup, pyRound2_one])).1
  · refine ⟨_, rfl, ?_, ?_, ?_⟩
    · exact (C2_processed_record_shape.2 mdStub "T1" "T2"
        [("name", Val.vStr "Ana")] _ (fun s => rfl) rfl).1 rfl
        (by simp [flatten_record, flatten_items, mkDict, pyInsert, List.lookup])
    · exact (C2_processed_record_shape.2 mdStub "T1" "T2"
        [("name", Val.vStr "Ana")] _ (fun s => rfl) rfl).2.1
        (by simp [flatten_record, flatten_items, mkDict, pyInsert, List.lookup])
    · exact (C2_processed_record_shape.2 mdStub "T1" "T2"
        [("name", Val.vStr "Ana")] _ (fun s => rfl) rfl).2.2
        (by simp [flatten_record, flatten_items, mkDict, pyInsert, List.lookup])

/-! ## Claim C1 -/

/-- The raw input of the end-to-end example in the spec and in
tests/unit/test_lambda/test_data_processor.py. -/
def c1RawData : List Val :=
  [.vDict [("id", .vInt 1), ("name", .vStr "Ana")],
   .vDict [("id", .vInt 2), ("name", .vStr "Luis")]]

/-- C1: evaluation of the processor at the claim's example input. Two
records come out with processed_at present, data_quality_score 1.0 and
is_complete true, and add_metadata reports record_count 2 and source
"test" — but each output id is the source's INTEGER id (1 resp. 2), not
the string "1"/"2" the claim (and the spec's string-coercion identifier
policy) requires: the `**flatten` splice in the dict display comes after
the coerced "id" entry and overwrites it, so the str() coercion is dead
code for every record carrying a top-level id. -/
theorem C1_pipeline_at_example :
    process mdStub "T1" "T2" c1RawData =
      [[("id", .vInt 1), ("created_at", .vStr "T1"), ("processed_at", .vStr "T2"),
        ("name", .vStr "Ana"), ("data_quality_score", .vFloat 1),
        ("is_complete", .vBool true)],
       [("id", .vInt 2), ("created_at", .vStr "T1"), ("processed_at", .vStr "T2"),
        ("name", .vStr "Luis"), ("data_quality_score", .vFloat 1),
        ("is_complete", .vBool true)]] ∧
    (process mdStub "T1" "T2" c1RawData).length = 2 ∧
    (process mdStub "T1" "T2" c1RawData).map (fun r => r.lookup "id") =
      [some (.vInt 1), some (.vInt 2)] ∧
    some (Val.vInt 1) ≠ some (Val.vStr "1") ∧
    some (Val.vInt 2) ≠ some (Val.vStr "2") ∧
    (process mdStub "T1" "T2" c1RawData).map
      (fun r => (r.lookup "processed_at").isSome) = [true, true] ∧
    (process mdStub "T1" "T2" c1RawData).map
      (fun r => r.lookup "data_quality_score") =
      [some (.vFloat 1), some (.vFloat 1)] ∧
    (process mdStub "T1" "T2" c1RawData).map (fun r => r.lookup "is_complete") =
      [some (.vBool true), some (.vBool true)] ∧
    (add_metadata "T3" (process mdStub "T1" "T2" c1RawData)
      [("source", .vStr "test")]).lookup "record_count" = some (.vInt 2) ∧
    (add_metadata "T3" (process mdStub "T1" "T2" c1RawData)
      [("source", .vStr "test")]).lookup "source" = some (.vStr "test") := by
  have h1 : process mdStub "T1" "T2" c1RawData =
      [[("id", .vInt 1), ("created_at", .vStr "T1"), ("processed_at", .vStr "T2"),
        ("name", .vStr "Ana"), ("data_quality_score", .vFloat 1),
        ("is_complete", .vBool true)],
       [("id", .vInt 2), ("created_at", .vStr "T1"), ("processed_at", .vStr "T2"),
        ("name", .vStr "Luis"), ("data_quality_score", .vFloat 1),
        ("is_complete", .vBool true)]] := by
    simp [c1RawData, process, processElem, process_record, flatten_record,
      flatten_items, mkDict, pyInsert, calculate_quality_score,
      check_completeness, required_fields, pyStr, isNone, eqEmptyStr,
      List.lookup, pyRound2_one]
  refine ⟨h1, ?_, ?_, by simp, by simp, ?_, ?_, ?_, ?_, ?_⟩ <;> rw [h1] <;> rfl

end DataPipeline
